import Mathlib

/-!
Shallow embedding of the MicroLend MVP contract
(`src/blockchain/contracts/MicroLend.sol`) and of the platform-statistics
computation of the frontend contract library.

Addresses are modelled as `Nat`, Wei amounts and timestamps as `Nat`
(Solidity 0.8 checked `uint256` arithmetic: overflow reverts, so successful
executions compute the true natural-number values; guarded subtractions
agree with `Nat` truncated subtraction).  Solidity mappings are total
functions returning the zero value of the range (`defaultLoan`, `0`, `[]`),
exactly as storage mappings do.  External calls that transfer value are
modelled as succeeding and are reported in the operation's output; any
failing transfer in the contract reverts the whole operation, so successful
executions are exactly what the model computes.
-/

/-- `enum LoanStatus { Funding, Active, Completed, Defaulted }`. -/
inductive LoanStatus where
  | Funding
  | Active
  | Completed
  | Defaulted
deriving DecidableEq, Repr

/-- The `Loan` struct of the contract. -/
structure Loan where
  id : Nat
  borrower : Nat
  amount : Nat
  interestRate : Nat
  duration : Nat
  purpose : String
  status : LoanStatus
  amountFunded : Nat
  createdAt : Nat
  dueDate : Nat
deriving DecidableEq, Repr

/-- The zero value of the `Loan` struct: what `loans[i]` returns for a
never-written key. -/
def defaultLoan : Loan :=
  { id := 0, borrower := 0, amount := 0, interestRate := 0, duration := 0,
    purpose := "", status := .Funding, amountFunded := 0, createdAt := 0,
    dueDate := 0 }

/-- The contract's storage. -/
structure ContractState where
  loanIdCounter : Nat
  loans : Nat → Loan
  investments : Nat → Nat → Nat
  loanLenders : Nat → List Nat
  allLoanIds : List Nat

/-- Storage at deployment: `_loanIdCounter = 0`, all mappings zero. -/
def initialState : ContractState :=
  { loanIdCounter := 0, loans := fun _ => defaultLoan,
    investments := fun _ _ => 0, loanLenders := fun _ => [],
    allLoanIds := [] }

/-- Write one slot of the `loans` mapping. -/
def setLoan (f : Nat → Loan) (i : Nat) (L : Loan) : Nat → Loan :=
  fun j => if j = i then L else f j

/-- Write one slot of the `investments` double mapping. -/
def setInv (f : Nat → Nat → Nat) (i a v : Nat) : Nat → Nat → Nat :=
  fun j b => if j = i then (if b = a then v else f j b) else f j b

/-- The contract's custom errors (the `markLoanAsDefaulted` string revert
is `LoanNotYetDue`). -/
inductive ContractError where
  | LoanNotFound (loanId : Nat)
  | IncorrectStatus (required current : LoanStatus)
  | InsufficientFunds
  | AlreadyFullyFunded
  | AmountMustBePositive
  | DurationMustBePositive
  | TransferFailed
  | NotBorrower
  | InsufficientRepaymentAmount
  | RepaymentFailed
  | LoanNotYetDue
deriving DecidableEq, Repr

/-- `createLoan(_amount, _interestRate, _durationDays, _purpose)` called by
`sender` at time `now`.  `1 days = 86400` seconds. -/
def createLoan (s : ContractState) (sender amount interestRate durationDays : Nat)
    (purpose : String) (now : Nat) : Except ContractError ContractState :=
  if amount = 0 then .error .AmountMustBePositive
  else if durationDays = 0 then .error .DurationMustBePositive
  else
    let newLoanId := s.loanIdCounter + 1
    let durationSeconds := durationDays * 86400
    let newLoan : Loan :=
      { id := newLoanId, borrower := sender, amount := amount,
        interestRate := interestRate, duration := durationSeconds,
        purpose := purpose, status := .Funding, amountFunded := 0,
        createdAt := now, dueDate := now + durationSeconds }
    .ok { s with loanIdCounter := newLoanId,
                 loans := setLoan s.loans newLoanId newLoan,
                 allLoanIds := s.allLoanIds ++ [newLoanId] }

/-- The state update of `fundLoan`'s `if (amountToFund > 0)` block:
credit `amountFunded`, credit the lender's investment, and push the lender
onto the roster when the pre-update investment
(`investments[_loanId][msg.sender] - amountToFund` after the credit) is 0. -/
def creditFunding (s : ContractState) (i sender amt : Nat) : ContractState :=
  let loan := s.loans i
  let newInv := s.investments i sender + amt
  { s with
    loans := setLoan s.loans i { loan with amountFunded := loan.amountFunded + amt },
    investments := setInv s.investments i sender newInv,
    loanLenders := fun j =>
      if j = i then
        (if newInv - amt = 0 then s.loanLenders i ++ [sender] else s.loanLenders i)
      else s.loanLenders j }

/-- Overwrite only the `status` field of loan `i`. -/
def setStatus (s : ContractState) (i : Nat) (st : LoanStatus) : ContractState :=
  { s with loans := setLoan s.loans i { s.loans i with status := st } }

/-- Value transfers performed by `fundLoan`: `refund` is the excess sent
back to `msg.sender`, `payout` the amount sent to the borrower on
activation (0 when the loan is not yet fully funded). -/
structure FundOut where
  refund : Nat
  payout : Nat
deriving DecidableEq, Repr

/-- `fundLoan(_loanId)` called by `sender` with `msg.value = v`. -/
def fundLoan (s : ContractState) (loanId sender v : Nat) :
    Except ContractError (ContractState × FundOut) :=
  let loan := s.loans loanId
  if loan.id = 0 then .error (.LoanNotFound loanId)
  else if loan.status ≠ .Funding then .error (.IncorrectStatus .Funding loan.status)
  else if v = 0 then .error .InsufficientFunds
  else if loan.amount ≤ loan.amountFunded then .error .AlreadyFullyFunded
  else
    let remainingNeeded := loan.amount - loan.amountFunded
    let excess := if remainingNeeded < v then v - remainingNeeded else 0
    let amountToFund := if remainingNeeded < v then remainingNeeded else v
    let s1 := if 0 < amountToFund then creditFunding s loanId sender amountToFund else s
    if (s1.loans loanId).amountFunded = (s1.loans loanId).amount then
      .ok (setStatus s1 loanId .Active, { refund := excess, payout := (s1.loans loanId).amount })
    else
      .ok (s1, { refund := excess, payout := 0 })

/-- Value transfers performed by `repayLoan`: `refund` is the excess sent
back to the borrower, `payouts` the per-lender transfers in roster order. -/
structure RepayOut where
  refund : Nat
  payouts : List (Nat × Nat)
deriving DecidableEq, Repr

/-- `repayLoan(_loanId)` called by `sender` with `msg.value = v`.
`interestAmount = amount * interestRate / 10000` (integer division);
each lender's share is `investment * totalRepaymentAmount / amount`. -/
def repayLoan (s : ContractState) (loanId sender v : Nat) :
    Except ContractError (ContractState × RepayOut) :=
  let loan := s.loans loanId
  if loan.id = 0 then .error (.LoanNotFound loanId)
  else if loan.status ≠ .Active then .error (.IncorrectStatus .Active loan.status)
  else if sender ≠ loan.borrower then .error .NotBorrower
  else
    let interestAmount := loan.amount * loan.interestRate / 10000
    let totalRepaymentAmount := loan.amount + interestAmount
    if v < totalRepaymentAmount then .error .InsufficientRepaymentAmount
    else
      let refund := if totalRepaymentAmount < v then v - totalRepaymentAmount else 0
      let payouts := (s.loanLenders loanId).map
        (fun lender => (lender, s.investments loanId lender * totalRepaymentAmount / loan.amount))
      .ok (setStatus s loanId .Completed, { refund := refund, payouts := payouts })

/-- `markLoanAsDefaulted(_loanId)` at time `now`. -/
def markLoanAsDefaulted (s : ContractState) (loanId now : Nat) :
    Except ContractError ContractState :=
  let loan := s.loans loanId
  if loan.id = 0 then .error (.LoanNotFound loanId)
  else if loan.status ≠ .Active then .error (.IncorrectStatus .Active loan.status)
  else if now ≤ loan.dueDate then .error .LoanNotYetDue
  else .ok (setStatus s loanId .Defaulted)

/-- `getLoanDetails(_loanId)`. -/
def getLoanDetails (s : ContractState) (loanId : Nat) : Except ContractError Loan :=
  if (s.loans loanId).id = 0 then .error (.LoanNotFound loanId)
  else .ok (s.loans loanId)

/-- `getLenderInvestment(_loanId, _lender)`. -/
def getLenderInvestment (s : ContractState) (loanId lender : Nat) :
    Except ContractError Nat :=
  if (s.loans loanId).id = 0 then .error (.LoanNotFound loanId)
  else .ok (s.investments loanId lender)

/-- `calculateRepaymentAmount(_loanId)`. -/
def calculateRepaymentAmount (s : ContractState) (loanId : Nat) :
    Except ContractError Nat :=
  let loan := s.loans loanId
  if loan.id = 0 then .error (.LoanNotFound loanId)
  else .ok (loan.amount + loan.amount * loan.interestRate / 10000)

/-- One external call to a state-changing entry point of the contract. -/
inductive Op where
  | create (sender amount interestRate durationDays : Nat) (purpose : String) (now : Nat)
  | fund (loanId sender v : Nat)
  | repay (loanId sender v : Nat)
  | markDefault (loanId now : Nat)

/-- The storage after a call, `none` when the call reverts. -/
def applyOp (s : ContractState) (op : Op) : Option ContractState :=
  match op with
  | .create sender amount interestRate durationDays purpose now =>
      (createLoan s sender amount interestRate durationDays purpose now).toOption
  | .fund loanId sender v => ((fundLoan s loanId sender v).toOption).map Prod.fst
  | .repay loanId sender v => ((repayLoan s loanId sender v).toOption).map Prod.fst
  | .markDefault loanId now => (markLoanAsDefaulted s loanId now).toOption

/-- States reachable from deployment by a sequence of successful calls. -/
inductive Reachable : ContractState → Prop where
  | init : Reachable initialState
  | step {s s' : ContractState} {op : Op} :
      Reachable s → applyOp s op = some s' → Reachable s'

-- ## Concrete example states (end-to-end scenario: borrower 7 requests 100
-- wei at 500 bps for 1 day at time 1000; lenders 100 and 200 fund 60/40)

def exSt1 : ContractState :=
  match createLoan initialState 7 100 500 1 "supplies" 1000 with
  | .ok s => s
  | .error _ => initialState

def exSt2 : ContractState :=
  match fundLoan exSt1 1 100 60 with
  | .ok r => r.1
  | .error _ => exSt1

def exFund3 : ContractState × FundOut :=
  match fundLoan exSt2 1 200 40 with
  | .ok r => r
  | .error _ => (exSt2, { refund := 0, payout := 0 })

def exSt3 : ContractState := exFund3.1

-- ## The frontend platform-statistics computation (`getPlatformStats`)

/-- A loan as the frontend's `getLoans` returns it: `status` is one of the
strings `"funding" | "active" | "completed" | "defaulted"`; the numeric
fields are modelled as rationals (JavaScript numbers). -/
structure UILoan where
  amount : Rat
  borrower : String
  interestRate : Rat
  duration : Rat
  status : String
deriving DecidableEq, Repr

/-- The statistics record returned by `getPlatformStats`, restricted to its
exactly-representable fields (`averageInterestRate` and
`averageLoanDuration` are genuine float divisions and are omitted; the
`successRate` operands are integers, so its value is exact). -/
structure PlatformStats where
  totalLoans : Nat
  totalVolume : Rat
  activeLoanCount : Nat
  activeLoanVolume : Rat
  totalInvestors : Nat
  totalBorrowers : Nat
  completedLoans : Nat
  defaultedLoans : Nat
  successRate : Rat
deriving DecidableEq, Repr

/-- `getPlatformStats` of the frontend contract library: an early return of
all-zero statistics when the loan list is empty, otherwise counts by
status, with
`successRate = completed + defaulted == 0 ? 100 : completed / (completed + defaulted) * 100`. -/
def getPlatformStats (loans : List UILoan) : PlatformStats :=
  if loans.length = 0 then
    { totalLoans := 0, totalVolume := 0, activeLoanCount := 0,
      activeLoanVolume := 0, totalInvestors := 0, totalBorrowers := 0,
      completedLoans := 0, defaultedLoans := 0, successRate := 0 }
  else
    let activeLoans := loans.filter (fun l => l.status = "active")
    let completedLoans := (loans.filter (fun l => l.status = "completed")).length
    let defaultedLoans := (loans.filter (fun l => l.status = "defaulted")).length
    let successRate : Rat :=
      if completedLoans + defaultedLoans = 0 then 100
      else ((completedLoans : Rat) / ((completedLoans : Rat) + (defaultedLoans : Rat))) * 100
    { totalLoans := loans.length,
      totalVolume := (loans.map (fun l => l.amount)).sum,
      activeLoanCount := activeLoans.length,
      activeLoanVolume := (activeLoans.map (fun l => l.amount)).sum,
      totalInvestors := 0,
      totalBorrowers := (loans.map (fun l => l.borrower.toLower)).dedup.length,
      completedLoans := completedLoans, defaultedLoans := defaultedLoans,
      successRate := successRate }

/-- A one-field-of-interest UI loan for concrete statistics inputs. -/
def exUILoan (st : String) : UILoan :=
  { amount := 1, borrower := "a", interestRate := 500, duration := 86400,
    status := st }

-- ## Basic mapping-update lemmas

theorem setLoan_self (f : Nat → Loan) (i : Nat) (L : Loan) : setLoan f i L i = L := by
  simp [setLoan]

theorem setLoan_ne (f : Nat → Loan) (i : Nat) (L : Loan) {j : Nat} (h : j ≠ i) :
    setLoan f i L j = f j := by
  simp [setLoan, h]

theorem setInv_ne (f : Nat → Nat → Nat) (i a v : Nat) {j : Nat} (h : j ≠ i) (b : Nat) :
    setInv f i a v j b = f j b := by
  simp [setInv, h]

-- ## Integer-division lemmas for proportional shares

theorem div_add_div_le_add_div (x y A : Nat) : x / A + y / A ≤ (x + y) / A := by
  rcases Nat.eq_zero_or_pos A with h | h
  · simp [h]
  · rw [Nat.le_div_iff_mul_le h]
    have hx : x / A * A ≤ x := Nat.div_mul_le_self x A
    have hy : y / A * A ≤ y := Nat.div_mul_le_self y A
    calc (x / A + y / A) * A = x / A * A + y / A * A := by ring
    _ ≤ x + y := Nat.add_le_add hx hy

theorem add_div_le_div_add_div_succ (x y A : Nat) (hA : 0 < A) :
    (x + y) / A ≤ x / A + y / A + 1 := by
  have hlt : (x + y) / A < x / A + y / A + 2 := by
    rw [Nat.div_lt_iff_lt_mul hA]
    have hx := Nat.div_add_mod x A
    have hy := Nat.div_add_mod y A
    have hxm : x % A < A := Nat.mod_lt _ hA
    have hym : y % A < A := Nat.mod_lt _ hA
    have hexp : (x / A + y / A + 2) * A = A * (x / A) + A * (y / A) + 2 * A := by ring
    omega
  omega

-- ## List-sum helper lemmas

theorem sum_map_if_not_mem (f : Nat → Nat) (a v : Nat) :
    ∀ l : List Nat, a ∉ l →
      (l.map (fun b => if b = a then v else f b)).sum = (l.map f).sum := by
  intro l
  induction l with
  | nil => intro _; rfl
  | cons c t ih =>
    intro h
    have hc : c ≠ a := fun hca => h (hca ▸ List.mem_cons_self c t)
    have ht : a ∉ t := fun hm => h (List.mem_cons_of_mem c hm)
    simp [hc, ih ht]

theorem sum_map_if_mem (f : Nat → Nat) (a v : Nat) :
    ∀ l : List Nat, l.Nodup → a ∈ l →
      (l.map (fun b => if b = a then v else f b)).sum + f a = (l.map f).sum + v := by
  intro l
  induction l with
  | nil => intro _ h; cases h
  | cons c t ih =>
    intro hnd hmem
    rcases List.mem_cons.mp hmem with hca | hta
    · subst hca
      have hnt : a ∉ t := (List.nodup_cons.mp hnd).1
      simp [sum_map_if_not_mem f a v t hnt]
      omega
    · have hc : c ≠ a := by
        intro hca; subst hca
        exact (List.nodup_cons.mp hnd).1 hta
      have := ih (List.nodup_cons.mp hnd).2 hta
      simp only [List.map_cons, List.sum_cons, hc, if_false]
      omega

theorem sum_shares_le (T A : Nat) :
    ∀ cs : List Nat, (cs.map (fun c => c * T / A)).sum ≤ cs.sum * T / A := by
  intro cs
  induction cs with
  | nil => simp
  | cons c t ih =>
    simp only [List.map_cons, List.sum_cons]
    calc c * T / A + (t.map (fun c => c * T / A)).sum
        ≤ c * T / A + t.sum * T / A := Nat.add_le_add_left ih _
    _ ≤ (c * T + t.sum * T) / A := div_add_div_le_add_div _ _ _
    _ = (c + t.sum) * T / A := by rw [Nat.add_mul]

theorem sum_shares_ge (T A : Nat) (hA : 0 < A) :
    ∀ cs : List Nat, cs ≠ [] →
      cs.sum * T / A ≤ (cs.map (fun c => c * T / A)).sum + (cs.length - 1) := by
  intro cs
  induction cs with
  | nil => intro h; exact absurd rfl h
  | cons c t ih =>
    intro _
    cases t with
    | nil => simp
    | cons d u =>
      have ht : (d :: u) ≠ [] := by simp
      have h1 : (c + (d :: u).sum) * T / A ≤ c * T / A + (d :: u).sum * T / A + 1 := by
        rw [Nat.add_mul]
        exact add_div_le_div_add_div_succ _ _ A hA
      have h2 := ih ht
      simp only [List.map_cons, List.sum_cons, List.length_cons] at *
      omega

-- ## The ledger invariant

/-- Inductive invariant of the contract storage: funded amounts are bounded
by the requested amount; the lender roster of each loan is duplicate-free,
carries exactly the addresses with a nonzero investment, and its
investments sum to `amountFunded`; loan ids equal their mapping key, are
exactly the keys `1 .. loanIdCounter`, coincide with membership in
`allLoanIds`, and unused slots hold the zero value. -/
def LedgerInv (s : ContractState) : Prop :=
  ∀ i : Nat,
    (s.loans i).amountFunded ≤ (s.loans i).amount ∧
    ((s.loanLenders i).map (s.investments i)).sum = (s.loans i).amountFunded ∧
    (s.loanLenders i).Nodup ∧
    (∀ a : Nat, a ∈ s.loanLenders i ↔ s.investments i a ≠ 0) ∧
    ((s.loans i).id = 0 ∨ (s.loans i).id = i) ∧
    ((s.loans i).id ≠ 0 ↔ (1 ≤ i ∧ i ≤ s.loanIdCounter)) ∧
    ((s.loans i).id ≠ 0 ↔ i ∈ s.allLoanIds) ∧
    ((s.loans i).id = 0 → s.loans i = defaultLoan ∧ s.loanLenders i = [])

theorem ledgerInv_initialState : LedgerInv initialState := by
  intro i
  simp [initialState, defaultLoan]
  omega

theorem ledgerInv_setStatus {s : ContractState} {i : Nat} {st : LoanStatus}
    (hInv : LedgerInv s) (hid : (s.loans i).id ≠ 0) : LedgerInv (setStatus s i st) := by
  intro j
  obtain ⟨h1, h2, h3, h4, h5, h6, h7, h8⟩ := hInv j
  by_cases hj : j = i
  · subst hj
    refine ⟨?_, ?_, h3, h4, ?_, ?_, ?_, ?_⟩ <;>
      simp [setStatus, setLoan_self]
    · exact h1
    · exact h2
    · exact h5
    · exact h6
    · exact h7
    · intro h0; exact absurd h0 hid
  · refine ⟨?_, ?_, h3, h4, ?_, ?_, ?_, ?_⟩ <;>
      simp [setStatus, setLoan_ne _ _ _ hj]
    · exact h1
    · exact h2
    · exact h5
    · exact h6
    · exact h7
    · exact h8

theorem ledgerInv_createLoan {s s' : ContractState}
    {sender amount interestRate durationDays now : Nat} {purpose : String}
    (hInv : LedgerInv s)
    (hc : createLoan s sender amount interestRate durationDays purpose now =
      Except.ok s') : LedgerInv s' := by
  simp only [createLoan] at hc
  split at hc
  · exact Except.noConfusion hc
  split at hc
  · exact Except.noConfusion hc
  injection hc with hc
  subst hc
  intro i
  obtain ⟨h1, h2, h3, h4, h5, h6, h7, h8⟩ := hInv i
  by_cases hi : i = s.loanIdCounter + 1
  · subst hi
    have hid0 : (s.loans (s.loanIdCounter + 1)).id = 0 := by
      by_contra hne
      have := (h6.mp hne).2
      omega
    obtain ⟨-, hlen⟩ := h8 hid0
    refine ⟨?_, ?_, ?_, ?_, ?_, ?_, ?_, ?_⟩ <;>
      simp [setLoan_self, hlen]
    · intro a; simpa [hlen] using (h4 a)
  · refine ⟨?_, ?_, h3, h4, ?_, ?_, ?_, ?_⟩ <;>
      simp [setLoan_ne _ _ _ hi]
    · exact h1
    · exact h2
    · exact h5
    · constructor
      · intro hne
        have := h6.mp hne
        omega
      · intro hrange
        exact h6.mpr ⟨hrange.1, by omega⟩
    · simpa [List.mem_append, hi] using h7
    · exact h8

-- ## Component equations for `creditFunding`

theorem creditFunding_loans_self (s : ContractState) (i sender amt : Nat) :
    (creditFunding s i sender amt).loans i
      = { s.loans i with amountFunded := (s.loans i).amountFunded + amt } := by
  simp [creditFunding, setLoan_self]

theorem creditFunding_loans_ne (s : ContractState) (i sender amt : Nat) {j : Nat}
    (h : j ≠ i) : (creditFunding s i sender amt).loans j = s.loans j := by
  simp [creditFunding, setLoan_ne _ _ _ h]

theorem creditFunding_inv_self (s : ContractState) (i sender amt : Nat) :
    (creditFunding s i sender amt).investments i
      = fun b => if b = sender then s.investments i sender + amt
                 else s.investments i b := by
  funext b
  simp [creditFunding, setInv]

theorem creditFunding_inv_ne (s : ContractState) (i sender amt : Nat) {j : Nat}
    (h : j ≠ i) : (creditFunding s i sender amt).investments j = s.investments j := by
  funext b
  simp [creditFunding, setInv, h]

theorem creditFunding_lenders_self (s : ContractState) (i sender amt : Nat) :
    (creditFunding s i sender amt).loanLenders i
      = if s.investments i sender + amt - amt = 0
        then s.loanLenders i ++ [sender] else s.loanLenders i := by
  simp [creditFunding]

theorem creditFunding_lenders_ne (s : ContractState) (i sender amt : Nat) {j : Nat}
    (h : j ≠ i) : (creditFunding s i sender amt).loanLenders j = s.loanLenders j := by
  simp [creditFunding, h]

theorem creditFunding_counter (s : ContractState) (i sender amt : Nat) :
    (creditFunding s i sender amt).loanIdCounter = s.loanIdCounter := rfl

theorem creditFunding_ids (s : ContractState) (i sender amt : Nat) :
    (creditFunding s i sender amt).allLoanIds = s.allLoanIds := rfl

theorem ledgerInv_creditFunding {s : ContractState} {i sender amt : Nat}
    (hInv : LedgerInv s) (hid : (s.loans i).id ≠ 0) (hamt : 0 < amt)
    (hle : amt ≤ (s.loans i).amount - (s.loans i).amountFunded) :
    LedgerInv (creditFunding s i sender amt) := by
  have hfle : (s.loans i).amountFunded ≤ (s.loans i).amount := (hInv i).1
  intro j
  obtain ⟨h1, h2, h3, h4, h5, h6, h7, h8⟩ := hInv j
  by_cases hj : j = i
  · subst hj
    rw [creditFunding_loans_self, creditFunding_inv_self,
        creditFunding_lenders_self, creditFunding_counter, creditFunding_ids]
    rw [Nat.add_sub_cancel]
    by_cases h0 : s.investments j sender = 0
    · have hnotmem : sender ∉ s.loanLenders j := fun hm => (h4 sender).mp hm h0
      rw [if_pos h0]
      refine ⟨by simp; omega, ?_, ?_, ?_, by simpa using h5, by simpa using h6,
        by simpa using h7, ?_⟩
      · simp only [List.map_append, List.sum_append, List.map_cons, List.map_nil,
          List.sum_cons, List.sum_nil]
        rw [sum_map_if_not_mem _ _ _ _ hnotmem]
        simp [h2, h0]
      · exact (h3.append (List.nodup_singleton sender)) (by
          intro a ha hb
          simp at hb
          subst hb
          exact hnotmem ha)
      · intro a
        by_cases ha : a = sender
        · subst ha
          simp [List.mem_append]
          omega
        · simp [List.mem_append, ha, h4 a]
      · intro habs
        simp at habs
        exact absurd habs hid
    · have hmem : sender ∈ s.loanLenders j := (h4 sender).mpr h0
      rw [if_neg h0]
      refine ⟨by simp; omega, ?_, h3, ?_, by simpa using h5, by simpa using h6,
        by simpa using h7, ?_⟩
      · have := sum_map_if_mem (s.investments j) sender
          (s.investments j sender + amt) (s.loanLenders j) h3 hmem
        simp only [Loan.mk.injEq]
        omega
      · intro a
        by_cases ha : a = sender
        · subst ha
          simp [hmem]
          omega
        · simp [ha, h4 a]
      · intro habs
        simp at habs
        exact absurd habs hid
  · rw [creditFunding_loans_ne _ _ _ _ hj, creditFunding_inv_ne _ _ _ _ hj,
        creditFunding_lenders_ne _ _ _ _ hj, creditFunding_counter,
        creditFunding_ids]
    exact ⟨h1, h2, h3, h4, h5, h6, h7, h8⟩

-- ## Success-shape lemmas for the payable entry points

theorem fund_amount_eq_min (v rem : Nat) :
    (if rem < v then rem else v) = min v rem := by
  split <;> omega

theorem fund_excess_eq (v rem : Nat) :
    (if rem < v then v - rem else 0) = v - min v rem := by
  split <;> omega

theorem fundLoan_ok_shape {s s' : ContractState} {loanId sender v : Nat}
    {out : FundOut} (h : fundLoan s loanId sender v = Except.ok (s', out)) :
    (s.loans loanId).id ≠ 0 ∧ (s.loans loanId).status = LoanStatus.Funding ∧
    0 < v ∧ (s.loans loanId).amountFunded < (s.loans loanId).amount ∧
    out.refund = v - min v ((s.loans loanId).amount - (s.loans loanId).amountFunded) ∧
    (s' = creditFunding s loanId sender
        (min v ((s.loans loanId).amount - (s.loans loanId).amountFunded)) ∨
     s' = setStatus (creditFunding s loanId sender
        (min v ((s.loans loanId).amount - (s.loans loanId).amountFunded)))
        loanId LoanStatus.Active) := by
  simp only [fundLoan] at h
  split at h
  · exact Except.noConfusion h
  split at h
  · exact Except.noConfusion h
  split at h
  · exact Except.noConfusion h
  split at h
  · exact Except.noConfusion h
  rename_i hid hstat hv hfull
  rw [fund_amount_eq_min, fund_excess_eq] at h
  have hpos : 0 < min v ((s.loans loanId).amount - (s.loans loanId).amountFunded) := by
    omega
  rw [if_pos hpos] at h
  split at h <;>
  · injection h with h
    injection h with h1 h2
    subst h1
    subst h2
    exact ⟨hid, by simpa using hstat, by omega, by omega, rfl, by simp⟩

theorem repayLoan_ok_shape {s s' : ContractState} {loanId sender v : Nat}
    {out : RepayOut} (h : repayLoan s loanId sender v = Except.ok (s', out)) :
    (s.loans loanId).id ≠ 0 ∧ (s.loans loanId).status = LoanStatus.Active ∧
    sender = (s.loans loanId).borrower ∧
    (s.loans loanId).amount +
      (s.loans loanId).amount * (s.loans loanId).interestRate / 10000 ≤ v ∧
    out.refund = v - ((s.loans loanId).amount +
      (s.loans loanId).amount * (s.loans loanId).interestRate / 10000) ∧
    out.payouts = (s.loanLenders loanId).map
      (fun lender => (lender, s.investments loanId lender *
        ((s.loans loanId).amount +
          (s.loans loanId).amount * (s.loans loanId).interestRate / 10000) /
        (s.loans loanId).amount)) ∧
    s' = setStatus s loanId LoanStatus.Completed := by
  simp only [repayLoan] at h
  split at h
  · exact Except.noConfusion h
  split at h
  · exact Except.noConfusion h
  split at h
  · exact Except.noConfusion h
  split at h
  · exact Except.noConfusion h
  rename_i hid hstat hbor hlt
  injection h with h
  injection h with h1 h2
  subst h1
  subst h2
  refine ⟨hid, by simpa using hstat, by simpa using hbor, by omega, ?_, rfl, rfl⟩
  dsimp only
  split <;> omega

theorem markLoanAsDefaulted_ok_shape {s s' : ContractState} {loanId now : Nat}
    (h : markLoanAsDefaulted s loanId now = Except.ok s') :
    (s.loans loanId).id ≠ 0 ∧ (s.loans loanId).status = LoanStatus.Active ∧
    (s.loans loanId).dueDate < now ∧
    s' = setStatus s loanId LoanStatus.Defaulted := by
  simp only [markLoanAsDefaulted] at h
  split at h
  · exact Except.noConfusion h
  split at h
  · exact Except.noConfusion h
  split at h
  · exact Except.noConfusion h
  rename_i hid hstat hdue
  injection h with h
  subst h
  exact ⟨hid, by simpa using hstat, by omega, rfl⟩

-- ## Invariant preservation across every entry point

theorem ledgerInv_fundLoan {s s' : ContractState} {loanId sender v : Nat}
    {out : FundOut} (hInv : LedgerInv s)
    (h : fundLoan s loanId sender v = Except.ok (s', out)) : LedgerInv s' := by
  obtain ⟨hid, hstat, hv, hlt, -, hshape⟩ := fundLoan_ok_shape h
  have hamt : 0 < min v ((s.loans loanId).amount - (s.loans loanId).amountFunded) := by
    omega
  have hcf := @ledgerInv_creditFunding s loanId sender
    (min v ((s.loans loanId).amount - (s.loans loanId).amountFunded))
    hInv hid hamt (Nat.min_le_right _ _)
  rcases hshape with rfl | rfl
  · exact hcf
  · refine ledgerInv_setStatus hcf ?_
    rw [creditFunding_loans_self]
    simpa using hid

theorem ledgerInv_repayLoan {s s' : ContractState} {loanId sender v : Nat}
    {out : RepayOut} (hInv : LedgerInv s)
    (h : repayLoan s loanId sender v = Except.ok (s', out)) : LedgerInv s' := by
  obtain ⟨hid, -, -, -, -, -, rfl⟩ := repayLoan_ok_shape h
  exact ledgerInv_setStatus hInv hid

theorem ledgerInv_markLoanAsDefaulted {s s' : ContractState} {loanId now : Nat}
    (hInv : LedgerInv s)
    (h : markLoanAsDefaulted s loanId now = Except.ok s') : LedgerInv s' := by
  obtain ⟨hid, -, -, rfl⟩ := markLoanAsDefaulted_ok_shape h
  exact ledgerInv_setStatus hInv hid

theorem ledgerInv_applyOp {s s' : ContractState} {op : Op}
    (hInv : LedgerInv s) (h : applyOp s op = some s') : LedgerInv s' := by
  cases op with
  | create sender amount interestRate durationDays purpose now =>
    simp only [applyOp] at h
    cases hc : createLoan s sender amount interestRate durationDays purpose now with
    | error e => rw [hc] at h; exact Option.noConfusion h
    | ok t =>
      rw [hc] at h
      injection h with h
      subst h
      exact ledgerInv_createLoan hInv hc
  | fund loanId sender v =>
    simp only [applyOp] at h
    cases hc : fundLoan s loanId sender v with
    | error e => rw [hc] at h; exact Option.noConfusion h
    | ok t =>
      obtain ⟨t1, t2⟩ := t
      rw [hc] at h
      simp only [Except.toOption, Option.map_some] at h
      injection h with h
      subst h
      exact ledgerInv_fundLoan hInv hc
  | repay loanId sender v =>
    simp only [applyOp] at h
    cases hc : repayLoan s loanId sender v with
    | error e => rw [hc] at h; exact Option.noConfusion h
    | ok t =>
      obtain ⟨t1, t2⟩ := t
      rw [hc] at h
      simp only [Except.toOption, Option.map_some] at h
      injection h with h
      subst h
      exact ledgerInv_repayLoan hInv hc
  | markDefault loanId now =>
    simp only [applyOp] at h
    cases hc : markLoanAsDefaulted s loanId now with
    | error e => rw [hc] at h; exact Option.noConfusion h
    | ok t =>
      rw [hc] at h
      injection h with h
      subst h
      exact ledgerInv_markLoanAsDefaulted hInv hc

theorem reachable_ledgerInv {s : ContractState} (h : Reachable s) : LedgerInv s := by
  induction h with
  | init => exact ledgerInv_initialState
  | step _ hstep ih => exact ledgerInv_applyOp ih hstep

-- ## Field-preservation helpers and reachability of the example states

theorem setStatus_loans_self (s : ContractState) (i : Nat) (st : LoanStatus) :
    (setStatus s i st).loans i = { s.loans i with status := st } := by
  simp [setStatus, setLoan_self]

theorem setStatus_loans_ne (s : ContractState) (i : Nat) (st : LoanStatus)
    {j : Nat} (h : j ≠ i) : (setStatus s i st).loans j = s.loans j := by
  simp [setStatus, setLoan_ne _ _ _ h]

theorem setStatus_dueDate (s : ContractState) (i : Nat) (st : LoanStatus)
    (j : Nat) : ((setStatus s i st).loans j).dueDate = (s.loans j).dueDate := by
  by_cases hj : j = i
  · subst hj; rw [setStatus_loans_self]
  · rw [setStatus_loans_ne _ _ _ hj]

theorem setStatus_investments (s : ContractState) (i : Nat) (st : LoanStatus) :
    (setStatus s i st).investments = s.investments := rfl

theorem setStatus_lenders (s : ContractState) (i : Nat) (st : LoanStatus) :
    (setStatus s i st).loanLenders = s.loanLenders := rfl

theorem creditFunding_status (s : ContractState) (i sender amt j : Nat) :
    ((creditFunding s i sender amt).loans j).status = (s.loans j).status := by
  by_cases hj : j = i
  · subst hj; rw [creditFunding_loans_self]
  · rw [creditFunding_loans_ne _ _ _ _ hj]

theorem creditFunding_dueDate (s : ContractState) (i sender amt j : Nat) :
    ((creditFunding s i sender amt).loans j).dueDate = (s.loans j).dueDate := by
  by_cases hj : j = i
  · subst hj; rw [creditFunding_loans_self]
  · rw [creditFunding_loans_ne _ _ _ _ hj]

theorem reachable_exSt1 : Reachable exSt1 :=
  @Reachable.step initialState exSt1 (Op.create 7 100 500 1 "supplies" 1000)
    Reachable.init rfl

theorem reachable_exSt2 : Reachable exSt2 :=
  @Reachable.step exSt1 exSt2 (Op.fund 1 100 60) reachable_exSt1 rfl

theorem reachable_exSt3 : Reachable exSt3 :=
  @Reachable.step exSt2 exSt3 (Op.fund 1 200 40) reachable_exSt2 rfl

-- ## Claim theorems

/-- C1: on an existing loan in `Funding` status with attached value `v > 0`
(and funding still open), `fundLoan` credits exactly
`min v remaining` to `amountFunded` and to the caller's per-loan
contribution, refunds exactly `v - min v remaining` to the caller in the
same operation (which is the exact excess `v - remaining` when
`v > remaining`), and the credited amount never exceeds `remaining`. -/
theorem fundLoan_credits_min_refunds_excess
    (s : ContractState) (loanId sender v : Nat)
    (hid : (s.loans loanId).id ≠ 0)
    (hstat : (s.loans loanId).status = LoanStatus.Funding)
    (hv : 0 < v)
    (hlt : (s.loans loanId).amountFunded < (s.loans loanId).amount) :
    (fundLoan s loanId sender v).toOption.map
        (fun r => ((r.1.loans loanId).amountFunded,
                   r.1.investments loanId sender,
                   r.2.refund))
      = some ((s.loans loanId).amountFunded
                + min v ((s.loans loanId).amount - (s.loans loanId).amountFunded),
              s.investments loanId sender
                + min v ((s.loans loanId).amount - (s.loans loanId).amountFunded),
              v - min v ((s.loans loanId).amount - (s.loans loanId).amountFunded)) ∧
    min v ((s.loans loanId).amount - (s.loans loanId).amountFunded)
      ≤ (s.loans loanId).amount - (s.loans loanId).amountFunded ∧
    ((s.loans loanId).amount - (s.loans loanId).amountFunded < v →
      v - min v ((s.loans loanId).amount - (s.loans loanId).amountFunded)
        = v - ((s.loans loanId).amount - (s.loans loanId).amountFunded)) := by
  refine ⟨?_, Nat.min_le_right _ _, fun _ => by omega⟩
  simp only [fundLoan]
  rw [if_neg hid, if_neg (by simp [hstat]), if_neg (by omega), if_neg (by omega)]
  rw [fund_amount_eq_min, fund_excess_eq]
  rw [if_pos (by omega :
    0 < min v ((s.loans loanId).amount - (s.loans loanId).amountFunded))]
  split
  · refine congrArg some ?_
    simp only [Prod.mk.injEq]
    refine ⟨?_, ?_, trivial⟩
    · rw [setStatus_loans_self]
      show ((creditFunding _ _ _ _).loans loanId).amountFunded = _
      rw [creditFunding_loans_self]
    · rw [setStatus_investments, creditFunding_inv_self]
      simp
  · refine congrArg some ?_
    simp only [Prod.mk.injEq]
    refine ⟨?_, ?_, trivial⟩
    · rw [creditFunding_loans_self]
    · rw [creditFunding_inv_self]
      simp

/-- C1 witness: lender 200 attaches 50 wei to the 60%-funded 100-wei loan:
exactly `min 50 40 = 40` is credited to `amountFunded` (60 → 100) and to
the lender's contribution, and the excess 10 is refunded. -/
theorem fundLoan_credits_min_refunds_excess_witness :
    (fundLoan exSt2 1 200 50).toOption.map
        (fun r => ((r.1.loans 1).amountFunded,
                   r.1.investments 1 200,
                   r.2.refund))
      = some (100, 40, 10) := by
  have h := fundLoan_credits_min_refunds_excess exSt2 1 200 50
    (by decide) (by decide) (by decide) (by decide)
  exact h.1

/-- C2: a successful `repayLoan` on an `Active` loan pays every lender in
the roster `share = contribution * totalDue / amountRequested` (integer
division) where `totalDue = amount + amount * interestRateBPS / 10000`;
the shares sum to at most `totalDue` and to at least
`totalDue - (number of lenders - 1)`; on the concrete 60/40 split of a
100-wei loan at 500 bps the shares are exactly 63 and 42, summing to the
full 105 with zero dust. -/
theorem repayLoan_proportional_shares_bounded_dust
    (s : ContractState) (loanId sender v : Nat)
    (hid : (s.loans loanId).id ≠ 0)
    (hstat : (s.loans loanId).status = LoanStatus.Active)
    (hbor : sender = (s.loans loanId).borrower)
    (hpos : 0 < (s.loans loanId).amount)
    (hsum : ((s.loanLenders loanId).map (s.investments loanId)).sum
              = (s.loans loanId).amount)
    (hv : (s.loans loanId).amount
            + (s.loans loanId).amount * (s.loans loanId).interestRate / 10000 ≤ v) :
    (repayLoan s loanId sender v).toOption.map (fun r => r.2.payouts)
      = some ((s.loanLenders loanId).map
          (fun lender => (lender, s.investments loanId lender *
            ((s.loans loanId).amount
              + (s.loans loanId).amount * (s.loans loanId).interestRate / 10000) /
            (s.loans loanId).amount))) ∧
    ((s.loanLenders loanId).map
        (fun lender => s.investments loanId lender *
          ((s.loans loanId).amount
            + (s.loans loanId).amount * (s.loans loanId).interestRate / 10000) /
          (s.loans loanId).amount)).sum
      ≤ (s.loans loanId).amount
          + (s.loans loanId).amount * (s.loans loanId).interestRate / 10000 ∧
    (s.loans loanId).amount
        + (s.loans loanId).amount * (s.loans loanId).interestRate / 10000
      ≤ ((s.loanLenders loanId).map
          (fun lender => s.investments loanId lender *
            ((s.loans loanId).amount
              + (s.loans loanId).amount * (s.loans loanId).interestRate / 10000) /
            (s.loans loanId).amount)).sum
        + ((s.loanLenders loanId).length - 1) ∧
    (repayLoan exSt3 1 7 105).toOption.map (fun r => r.2.payouts)
      = some [(100, 63), (200, 42)] ∧
    63 + 42 = 105 := by
  have hcomp : (s.loanLenders loanId).map
        (fun lender => s.investments loanId lender *
          ((s.loans loanId).amount
            + (s.loans loanId).amount * (s.loans loanId).interestRate / 10000) /
          (s.loans loanId).amount)
      = ((s.loanLenders loanId).map (s.investments loanId)).map
          (fun c => c *
            ((s.loans loanId).amount
              + (s.loans loanId).amount * (s.loans loanId).interestRate / 10000) /
            (s.loans loanId).amount) := by
    rw [List.map_map]
    rfl
  refine ⟨?_, ?_, ?_, by decide, rfl⟩
  · simp only [repayLoan]
    rw [if_neg hid, if_neg (by simp [hstat]), if_neg (by simp [hbor]),
      if_neg (by omega)]
    rfl
  · rw [hcomp]
    calc (((s.loanLenders loanId).map (s.investments loanId)).map
            (fun c => c *
              ((s.loans loanId).amount
                + (s.loans loanId).amount * (s.loans loanId).interestRate / 10000) /
              (s.loans loanId).amount)).sum
        ≤ ((s.loanLenders loanId).map (s.investments loanId)).sum *
            ((s.loans loanId).amount
              + (s.loans loanId).amount * (s.loans loanId).interestRate / 10000) /
            (s.loans loanId).amount := sum_shares_le _ _ _
      _ = (s.loans loanId).amount *
            ((s.loans loanId).amount
              + (s.loans loanId).amount * (s.loans loanId).interestRate / 10000) /
            (s.loans loanId).amount := by rw [hsum]
      _ = (s.loans loanId).amount
            + (s.loans loanId).amount * (s.loans loanId).interestRate / 10000 :=
          Nat.mul_div_cancel_left _ hpos
  · have hne : (s.loanLenders loanId).map (s.investments loanId) ≠ [] := by
      intro hnil
      rw [hnil] at hsum
      simp at hsum
      omega
    have hlow := sum_shares_ge
      ((s.loans loanId).amount
        + (s.loans loanId).amount * (s.loans loanId).interestRate / 10000)
      (s.loans loanId).amount hpos
      ((s.loanLenders loanId).map (s.investments loanId)) hne
    rw [hsum, Nat.mul_div_cancel_left _ hpos, List.length_map] at hlow
    rw [hcomp]
    exact hlow

/-- C2 witness: the 60/40-funded 100-wei loan at 500 bps is repaid with
exactly 105; lender 100 receives 63 and lender 200 receives 42, and the
distributed total is bounded by `totalDue = 105`. -/
theorem repayLoan_proportional_shares_bounded_dust_witness :
    (repayLoan exSt3 1 7 105).toOption.map (fun r => r.2.payouts)
      = some [(100, 63), (200, 42)] ∧
    ((exSt3.loanLenders 1).map
        (fun lender => exSt3.investments 1 lender * 105 / 100)).sum ≤ 105 := by
  have h := repayLoan_proportional_shares_bounded_dust exSt3 1 7 105
    (by decide) (by decide) (by decide) (by decide) (by decide) (by decide)
  exact ⟨h.1, h.2.1⟩

/-- C3: in every state reachable by the contract's state-changing
operations, every loan satisfies `0 ≤ amountFunded ≤ amountRequested`, and
the per-(loan, lender) contributions sum to `amountFunded`: the roster
contributions sum to `amountFunded` and every address outside the roster
has contribution 0. -/
theorem reachable_funding_bounds_and_contribution_sum
    (s : ContractState) (hR : Reachable s) (i : Nat) :
    0 ≤ (s.loans i).amountFunded ∧
    (s.loans i).amountFunded ≤ (s.loans i).amount ∧
    ((s.loanLenders i).map (s.investments i)).sum = (s.loans i).amountFunded ∧
    (∀ a : Nat, a ∉ s.loanLenders i → s.investments i a = 0) := by
  obtain ⟨h1, h2, h3, h4, -⟩ := reachable_ledgerInv hR i
  refine ⟨Nat.zero_le _, h1, h2, fun a ha => ?_⟩
  by_contra hne
  exact ha ((h4 a).mpr hne)

/-- C3 witness: in the reachable state where the 100-wei loan is funded
60/40, `amountFunded = 100 ≤ 100 = amount`, the roster contributions
`60 + 40` sum to `amountFunded`, and the uninvolved address 999 holds no
contribution. -/
theorem reachable_funding_bounds_and_contribution_sum_witness :
    (exSt3.loans 1).amountFunded ≤ (exSt3.loans 1).amount ∧
    ((exSt3.loanLenders 1).map (exSt3.investments 1)).sum
      = (exSt3.loans 1).amountFunded ∧
    exSt3.investments 1 999 = 0 := by
  have h := reachable_funding_bounds_and_contribution_sum exSt3 reachable_exSt3 1
  exact ⟨h.2.1, h.2.2.1, h.2.2.2 999 (by decide)⟩

/-- C4 counterexample: creating a loan (amount 100, 1 day, at time 1000)
already sets `dueDate = createdAt + durationSeconds = 87400` while the loan
is still in `Funding` status, and the full-funding activation leaves
`dueDate` at 87400 — it does not recompute it from the funding time.  So
`dueDate` is determined at creation, refuting the claim that it is set at
the full-funding transition and not at creation. -/
theorem dueDate_set_at_funding_transition_cex :
    (exSt1.loans 1).status = LoanStatus.Funding ∧
    (exSt1.loans 1).dueDate = 87400 ∧
    (exSt1.loans 1).dueDate = (exSt1.loans 1).createdAt + (exSt1.loans 1).duration ∧
    (exSt3.loans 1).status = LoanStatus.Active ∧
    (exSt3.loans 1).dueDate = 87400 := by
  decide

/-- C4 amended: `dueDate` is set exactly once, by `createLoan`, to
`createdAt + durationSeconds` (with `durationSeconds = durationDays * 86400`);
`fundLoan` (which takes no timestamp at all), `repayLoan` and
`markLoanAsDefaulted` never modify any loan's `dueDate`. -/
theorem dueDate_set_once_at_creation (s : ContractState) :
    (∀ sender amount interestRate durationDays : Nat, ∀ purpose : String,
      ∀ now : Nat, amount ≠ 0 → durationDays ≠ 0 →
      (createLoan s sender amount interestRate durationDays purpose now).toOption.map
          (fun t => ((t.loans (s.loanIdCounter + 1)).dueDate,
                     (t.loans (s.loanIdCounter + 1)).createdAt))
        = some (now + durationDays * 86400, now)) ∧
    (∀ loanId sender v : Nat, ∀ s' : ContractState, ∀ out : FundOut,
      fundLoan s loanId sender v = Except.ok (s', out) →
      ∀ i : Nat, (s'.loans i).dueDate = (s.loans i).dueDate) ∧
    (∀ loanId sender v : Nat, ∀ s' : ContractState, ∀ out : RepayOut,
      repayLoan s loanId sender v = Except.ok (s', out) →
      ∀ i : Nat, (s'.loans i).dueDate = (s.loans i).dueDate) ∧
    (∀ loanId now : Nat, ∀ s' : ContractState,
      markLoanAsDefaulted s loanId now = Except.ok s' →
      ∀ i : Nat, (s'.loans i).dueDate = (s.loans i).dueDate) := by
  refine ⟨?_, ?_, ?_, ?_⟩
  · intro sender amount interestRate durationDays purpose now ha hd
    simp only [createLoan]
    rw [if_neg ha, if_neg hd]
    refine congrArg some ?_
    dsimp only
    rw [setLoan_self]
  · intro loanId sender v s' out h i
    obtain ⟨-, -, -, -, -, hshape⟩ := fundLoan_ok_shape h
    rcases hshape with rfl | rfl
    · exact creditFunding_dueDate _ _ _ _ _
    · rw [setStatus_dueDate]
      exact creditFunding_dueDate _ _ _ _ _
  · intro loanId sender v s' out h i
    obtain ⟨-, -, -, -, -, -, rfl⟩ := repayLoan_ok_shape h
    exact setStatus_dueDate _ _ _ _
  · intro loanId now s' h i
    obtain ⟨-, -, -, rfl⟩ := markLoanAsDefaulted_ok_shape h
    exact setStatus_dueDate _ _ _ _

/-- C4 witness: creating the example loan at time 1000 with a 1-day
duration sets `dueDate = 87400` at creation, and the activating
`fundLoan` call leaves the `dueDate` unchanged. -/
theorem dueDate_set_once_at_creation_witness :
    (createLoan initialState 7 100 500 1 "supplies" 1000).toOption.map
        (fun t => ((t.loans 1).dueDate, (t.loans 1).createdAt))
      = some (87400, 1000) ∧
    (exSt3.loans 1).dueDate = (exSt2.loans 1).dueDate := by
  refine ⟨(dueDate_set_once_at_creation initialState).1 7 100 500 1 "supplies" 1000
      (by decide) (by decide), ?_⟩
  exact (dueDate_set_once_at_creation exSt2).2.1 1 200 40 exFund3.1 exFund3.2 rfl 1

/-- C5 counterexample: `createLoan` with `interestRateBPS = 0` and an empty
purpose string succeeds and stores loan 1 — the contract checks neither the
interest rate nor the purpose, refuting the claim that such calls create
no loan. -/
theorem createLoan_precondition_cex :
    (createLoan initialState 9 1 0 1 "" 5).toOption.map
        (fun t => ((t.loans 1).id, (t.loans 1).interestRate,
                   (t.loans 1).purpose, t.loanIdCounter))
      = some (1, 0, "", 1) := by
  decide

/-- C5 amended: `createLoan` reverts, writing no state, exactly when
`amount = 0` (`AmountMustBePositive`) or `durationDays = 0`
(`DurationMustBePositive`); any other call — including
`interestRateBPS = 0`, arbitrarily large rates, and an empty purpose —
succeeds and records the loan with the given rate and purpose.  (A revert
returns `Except.error`, which carries no state at all, so creation is
all-or-nothing.) -/
theorem createLoan_checks_only_amount_and_duration
    (s : ContractState) (sender amount interestRate durationDays : Nat)
    (purpose : String) (now : Nat) :
    (amount = 0 →
      createLoan s sender amount interestRate durationDays purpose now
        = Except.error ContractError.AmountMustBePositive) ∧
    (amount ≠ 0 → durationDays = 0 →
      createLoan s sender amount interestRate durationDays purpose now
        = Except.error ContractError.DurationMustBePositive) ∧
    (amount ≠ 0 → durationDays ≠ 0 →
      (createLoan s sender amount interestRate durationDays purpose now).toOption.map
          (fun t => ((t.loans (s.loanIdCounter + 1)).id,
                     (t.loans (s.loanIdCounter + 1)).interestRate,
                     (t.loans (s.loanIdCounter + 1)).purpose,
                     t.allLoanIds))
        = some (s.loanIdCounter + 1, interestRate, purpose,
                s.allLoanIds ++ [s.loanIdCounter + 1])) := by
  refine ⟨?_, ?_, ?_⟩
  · intro ha
    simp [createLoan, ha]
  · intro ha hd
    simp [createLoan, ha, hd]
  · intro ha hd
    simp only [createLoan]
    rw [if_neg ha, if_neg hd]
    refine congrArg some ?_
    dsimp only
    rw [setLoan_self]

/-- C5 witness: zero amount and zero duration are rejected with the
corresponding errors, while rate 0 with an empty purpose is accepted and
recorded. -/
theorem createLoan_checks_only_amount_and_duration_witness :
    createLoan initialState 9 0 500 1 "food" 5
      = Except.error ContractError.AmountMustBePositive ∧
    createLoan initialState 9 1 500 0 "food" 5
      = Except.error ContractError.DurationMustBePositive ∧
    (createLoan initialState 9 1 0 1 "" 5).toOption.map
        (fun t => ((t.loans 1).id, (t.loans 1).interestRate,
                   (t.loans 1).purpose, t.allLoanIds))
      = some (1, 0, "", [1]) := by
  refine ⟨(createLoan_checks_only_amount_and_duration initialState 9 0 500 1 "food" 5).1 rfl,
    (createLoan_checks_only_amount_and_duration initialState 9 1 500 0 "food" 5).2.1
      (by decide) rfl,
    (createLoan_checks_only_amount_and_duration initialState 9 1 0 1 "" 5).2.2
      (by decide) (by decide)⟩

/-- C6: a `repayLoan` call by the borrower of an existing `Active` loan
with attached value strictly below
`totalDue = amount + amount * interestRateBPS / 10000` (integer division)
rejects with `InsufficientRepaymentAmount`; nothing is distributed and no
state is returned (the revert is all-or-nothing), so the loan stays
`Active`. -/
theorem repayLoan_rejects_underpayment
    (s : ContractState) (loanId sender v : Nat)
    (hid : (s.loans loanId).id ≠ 0)
    (hstat : (s.loans loanId).status = LoanStatus.Active)
    (hbor : sender = (s.loans loanId).borrower)
    (hv : v < (s.loans loanId).amount
            + (s.loans loanId).amount * (s.loans loanId).interestRate / 10000) :
    repayLoan s loanId sender v
      = Except.error ContractError.InsufficientRepaymentAmount ∧
    (s.loans loanId).status = LoanStatus.Active := by
  refine ⟨?_, hstat⟩
  simp only [repayLoan]
  rw [if_neg hid, if_neg (by simp [hstat]), if_neg (by simp [hbor]), if_pos hv]

/-- C6 witness: repaying the active 100-wei loan at 500 bps
(`totalDue = 105`) with 104 attached is rejected. -/
theorem repayLoan_rejects_underpayment_witness :
    repayLoan exSt3 1 7 104
      = Except.error ContractError.InsufficientRepaymentAmount ∧
    (exSt3.loans 1).status = LoanStatus.Active :=
  repayLoan_rejects_underpayment exSt3 1 7 104
    (by decide) (by decide) (by decide) (by decide)

/-- C7: every successful state-changing operation either leaves a loan's
status unchanged or performs one of the three forward transitions
`Funding → Active` (full funding), `Active → Completed` (repayment),
`Active → Defaulted` (default marking); in particular no operation ever
moves a loan out of a terminal status or backwards. -/
theorem loan_status_transitions_forward_only
    (s s' : ContractState) (op : Op) (hR : Reachable s)
    (h : applyOp s op = some s') (i : Nat) :
    (s'.loans i).status = (s.loans i).status ∨
    ((s.loans i).status = LoanStatus.Funding ∧
      (s'.loans i).status = LoanStatus.Active) ∨
    ((s.loans i).status = LoanStatus.Active ∧
      (s'.loans i).status = LoanStatus.Completed) ∨
    ((s.loans i).status = LoanStatus.Active ∧
      (s'.loans i).status = LoanStatus.Defaulted) := by
  have hInv := reachable_ledgerInv hR
  cases op with
  | create sender amount interestRate durationDays purpose now =>
    simp only [applyOp] at h
    cases hc : createLoan s sender amount interestRate durationDays purpose now with
    | error e => rw [hc] at h; exact Option.noConfusion h
    | ok t =>
      rw [hc] at h
      injection h with h
      subst h
      left
      simp only [createLoan] at hc
      split at hc
      · exact Except.noConfusion hc
      split at hc
      · exact Except.noConfusion hc
      injection hc with hc
      subst hc
      show (setLoan s.loans (s.loanIdCounter + 1) _ i).status = _
      by_cases hi : i = s.loanIdCounter + 1
      · subst hi
        rw [setLoan_self]
        have hid0 : (s.loans (s.loanIdCounter + 1)).id = 0 := by
          by_contra hne
          obtain ⟨-, -, -, -, -, h6, -, -⟩ := hInv (s.loanIdCounter + 1)
          have := (h6.mp hne).2
          omega
        obtain ⟨-, -, -, -, -, -, -, h8⟩ := hInv (s.loanIdCounter + 1)
        rw [(h8 hid0).1]
        rfl
      · rw [setLoan_ne _ _ _ hi]
  | fund loanId sender v =>
    simp only [applyOp] at h
    cases hc : fundLoan s loanId sender v with
    | error e => rw [hc] at h; exact Option.noConfusion h
    | ok t =>
      obtain ⟨t1, t2⟩ := t
      rw [hc] at h
      simp only [Except.toOption, Option.map_some] at h
      injection h with h
      subst h
      obtain ⟨-, hstat, -, -, -, hshape⟩ := fundLoan_ok_shape hc
      rcases hshape with rfl | rfl
      · left
        exact creditFunding_status _ _ _ _ _
      · by_cases hi : i = loanId
        · subst hi
          right; left
          refine ⟨hstat, ?_⟩
          rw [setStatus_loans_self]
        · left
          rw [setStatus_loans_ne _ _ _ hi]
          exact creditFunding_status _ _ _ _ _
  | repay loanId sender v =>
    simp only [applyOp] at h
    cases hc : repayLoan s loanId sender v with
    | error e => rw [hc] at h; exact Option.noConfusion h
    | ok t =>
      obtain ⟨t1, t2⟩ := t
      rw [hc] at h
      simp only [Except.toOption, Option.map_some] at h
      injection h with h
      subst h
      obtain ⟨-, hstat, -, -, -, -, rfl⟩ := repayLoan_ok_shape hc
      by_cases hi : i = loanId
      · subst hi
        right; right; left
        refine ⟨hstat, ?_⟩
        rw [setStatus_loans_self]
      · left
        rw [setStatus_loans_ne _ _ _ hi]
  | markDefault loanId now =>
    simp only [applyOp] at h
    cases hc : markLoanAsDefaulted s loanId now with
    | error e => rw [hc] at h; exact Option.noConfusion h
    | ok t =>
      rw [hc] at h
      injection h with h
      subst h
      obtain ⟨-, hstat, -, rfl⟩ := markLoanAsDefaulted_ok_shape hc
      by_cases hi : i = loanId
      · subst hi
        right; right; right
        refine ⟨hstat, ?_⟩
        rw [setStatus_loans_self]
      · left
        rw [setStatus_loans_ne _ _ _ hi]

/-- C7 witness: the `fundLoan` call that completes funding of the example
loan moves its status from `Funding` to `Active` — one of the three
permitted forward transitions. -/
theorem loan_status_transitions_forward_only_witness :
    (exSt3.loans 1).status = (exSt2.loans 1).status ∨
    ((exSt2.loans 1).status = LoanStatus.Funding ∧
      (exSt3.loans 1).status = LoanStatus.Active) ∨
    ((exSt2.loans 1).status = LoanStatus.Active ∧
      (exSt3.loans 1).status = LoanStatus.Completed) ∨
    ((exSt2.loans 1).status = LoanStatus.Active ∧
      (exSt3.loans 1).status = LoanStatus.Defaulted) :=
  loan_status_transitions_forward_only exSt2 exSt3 (Op.fund 1 200 40)
    reachable_exSt2 rfl 1

/-- C8: for an existing `Active` loan, `markLoanAsDefaulted` reverts
(`"Loan is not yet due"`) whenever `now ≤ dueDate` and succeeds whenever
`now > dueDate`, in which case the new state differs from the old one only
by that loan's status being `Defaulted`. -/
theorem markLoanAsDefaulted_dueDate_boundary
    (s : ContractState) (loanId now : Nat)
    (hid : (s.loans loanId).id ≠ 0)
    (hstat : (s.loans loanId).status = LoanStatus.Active) :
    (now ≤ (s.loans loanId).dueDate →
      markLoanAsDefaulted s loanId now = Except.error ContractError.LoanNotYetDue) ∧
    ((s.loans loanId).dueDate < now →
      markLoanAsDefaulted s loanId now
        = Except.ok (setStatus s loanId LoanStatus.Defaulted)) := by
  constructor
  · intro hle
    simp only [markLoanAsDefaulted]
    rw [if_neg hid, if_neg (by simp [hstat]), if_pos hle]
  · intro hgt
    simp only [markLoanAsDefaulted]
    rw [if_neg hid, if_neg (by simp [hstat]), if_neg (by omega)]

/-- C8 witness: on the active example loan with `dueDate = 87400`, marking
default at time 87400 is rejected and at 87401 succeeds, setting the
status to `Defaulted`. -/
theorem markLoanAsDefaulted_dueDate_boundary_witness :
    markLoanAsDefaulted exSt3 1 87400
      = Except.error ContractError.LoanNotYetDue ∧
    markLoanAsDefaulted exSt3 1 87401
      = Except.ok (setStatus exSt3 1 LoanStatus.Defaulted) :=
  ⟨(markLoanAsDefaulted_dueDate_boundary exSt3 1 87400 (by decide) (by decide)).1
      (by decide),
   (markLoanAsDefaulted_dueDate_boundary exSt3 1 87401 (by decide) (by decide)).2
      (by decide)⟩

/-- C9 counterexample: with no loans at all, `getPlatformStats` takes the
early all-zero return and reports `successRate = 0`, not 100 — refuting
the claim's "including when the platform has no loans at all". -/
theorem getPlatformStats_empty_cex :
    (getPlatformStats []).successRate = 0 ∧ (0 : Rat) ≠ 100 := by
  refine ⟨rfl, by norm_num⟩

/-- C9 amended: `getPlatformStats` reports
`successRate = completed / (completed + defaulted) * 100` whenever some
loan is completed or defaulted; when loans exist but none has reached a
terminal completed/defaulted state it reports 100 instead of dividing by
zero; with no loans at all the early return reports 0. -/
theorem getPlatformStats_successRate (loans : List UILoan) :
    (loans = [] → (getPlatformStats loans).successRate = 0) ∧
    (loans ≠ [] →
      (loans.filter (fun l => l.status = "completed")).length
        + (loans.filter (fun l => l.status = "defaulted")).length = 0 →
      (getPlatformStats loans).successRate = 100) ∧
    (loans ≠ [] →
      0 < (loans.filter (fun l => l.status = "completed")).length
            + (loans.filter (fun l => l.status = "defaulted")).length →
      (getPlatformStats loans).successRate
        = ((loans.filter (fun l => l.status = "completed")).length : Rat) /
            (((loans.filter (fun l => l.status = "completed")).length : Rat)
              + ((loans.filter (fun l => l.status = "defaulted")).length : Rat))
          * 100) := by
  refine ⟨?_, ?_, ?_⟩
  · intro hnil
    subst hnil
    rfl
  · intro hne hzero
    have hlen : loans.length ≠ 0 := by
      simpa using fun habs => hne (List.length_eq_zero.mp habs)
    simp only [getPlatformStats]
    rw [if_neg hlen, if_pos hzero]
  · intro hne hpos
    have hlen : loans.length ≠ 0 := by
      simpa using fun habs => hne (List.length_eq_zero.mp habs)
    simp only [getPlatformStats]
    rw [if_neg hlen, if_neg (by omega)]

/-- C9 witness: one active loan yields success rate 100 (no terminal
loans); one completed and one defaulted loan yield 50; the empty platform
yields 0. -/
theorem getPlatformStats_successRate_witness :
    (getPlatformStats [exUILoan "active"]).successRate = 100 ∧
    (getPlatformStats [exUILoan "completed", exUILoan "defaulted"]).successRate
      = 50 ∧
    (getPlatformStats []).successRate = 0 := by
  refine ⟨(getPlatformStats_successRate [exUILoan "active"]).2.1 (by decide)
      (by decide), ?_,
    (getPlatformStats_successRate []).1 rfl⟩
  have h := (getPlatformStats_successRate
      [exUILoan "completed", exUILoan "defaulted"]).2.2 (by decide) (by decide)
  have e1 : (List.filter (fun l => decide (l.status = "completed"))
      [exUILoan "completed", exUILoan "defaulted"]).length = 1 := by decide
  have e2 : (List.filter (fun l => decide (l.status = "defaulted"))
      [exUILoan "completed", exUILoan "defaulted"]).length = 1 := by decide
  rw [e1, e2] at h
  rw [h]
  norm_num

/-- C10: the loan-id counter starts at 0 and ids are assigned as
`counter + 1`, so in every reachable state each stored loan's `id` equals
its mapping key and is at least 1, id 0 is never assigned, and the
existence test `loans[loanId].id == 0` (as used by `getLoanDetails` and the
other entry points) holds exactly when `loanId` was never created, i.e.
never recorded in `allLoanIds`. -/
theorem loan_ids_match_keys_and_existence_test
    (s : ContractState) (hR : Reachable s) (i : Nat) :
    initialState.loanIdCounter = 0 ∧
    ((s.loans i).id ≠ 0 → (s.loans i).id = i ∧ 1 ≤ (s.loans i).id) ∧
    ((s.loans i).id = 0 ↔ i ∉ s.allLoanIds) ∧
    ((s.loans i).id = 0 ↔
      getLoanDetails s i = Except.error (ContractError.LoanNotFound i)) := by
  obtain ⟨-, -, -, -, h5, h6, h7, -⟩ := reachable_ledgerInv hR i
  refine ⟨rfl, ?_, ?_, ?_⟩
  · intro hne
    have hi : (s.loans i).id = i := h5.resolve_left hne
    have := (h6.mp hne).1
    exact ⟨hi, by omega⟩
  · constructor
    · intro h0 hmem
      exact (h7.mpr hmem) h0
    · intro hnotmem
      by_contra hne
      exact hnotmem (h7.mp hne)
  · constructor
    · intro h0
      simp [getLoanDetails, h0]
    · intro herr
      by_contra hne
      rw [getLoanDetails, if_neg hne] at herr
      exact Except.noConfusion herr

/-- C10 witness: after the example creation, loan 1 carries id 1 while the
never-created key 2 still holds id 0 and is reported `LoanNotFound`. -/
theorem loan_ids_match_keys_and_existence_test_witness :
    (exSt1.loans 1).id = 1 ∧
    ((exSt1.loans 2).id = 0 ↔ 2 ∉ exSt1.allLoanIds) ∧
    getLoanDetails exSt1 2 = Except.error (ContractError.LoanNotFound 2) := by
  refine ⟨((loan_ids_match_keys_and_existence_test exSt1 reachable_exSt1 1).2.1
      (by decide)).1, (loan_ids_match_keys_and_existence_test exSt1
      reachable_exSt1 2).2.2.1, ?_⟩
  exact (loan_ids_match_keys_and_existence_test exSt1
      reachable_exSt1 2).2.2.2.mp (by decide)
